import Mathlib

/-!
Verification development for the retrieval-and-routing pipeline of a
RAG question-answering service.

The definitions below are a shallow embedding of the Python source:
 - `app/ingestion.py`   (`DocumentIngestion.chunk_text`)
 - `app/tools/qa_tool.py`   (`QATool`)
 - `app/tools/issue_summary_tool.py`   (`IssueSummaryTool`)
 - `app/tools/router_agent.py`   (`RouterAgent`)

Modelling conventions:
 - Python strings are Lean `String` values; where the source slices or
   strips by characters we work on the underlying `List Char`.
 - Python floats are modelled as rationals; Python `round(x, 2)` is
   modelled by `round2` below (round to nearest at two decimal places).
 - The language-model capability `llm_client.generate_structured_response`
   is opaque; its observable behaviours are captured by `LLMBehavior`:
   it returns a parsed non-empty mapping, returns a falsy result
   (`None`, an unparseable reply, or an empty mapping, all of which the
   consumers test with a single Python truthiness check), or raises.
 - Python `try/except Exception` blocks run in the `Except Unit` monad;
   `pyTry body handler` is the translation of a function body wrapped in
   a try/except returning `handler` on any exception.
-/

/-- The character set removed by Python `str.strip()` for ASCII input. -/
def isPySpace (c : Char) : Bool :=
  c == ' ' || c == '\t' || c == '\n' || c == '\r' || c == '\x0b' || c == '\x0c'

/-- Python `s.strip()` on the character list of a string. -/
def pyStrip (s : List Char) : List Char :=
  ((s.dropWhile isPySpace).reverse.dropWhile isPySpace).reverse

/-- Python `text.split("\x7bnewline newline\x7d")`: split on each
non-overlapping occurrence of the two-character blank-line separator,
scanning left to right, keeping empty pieces. -/
def splitParas : List Char → List (List Char)
  | [] => [[]]
  | '\n' :: '\n' :: rest => [] :: splitParas rest
  | c :: rest =>
    match splitParas rest with
    | [] => [[c]]
    | p :: ps => (c :: p) :: ps

/-- The slice loop `for i in range(0, len(paragraph), chunk_size)` of
`chunk_text`: consecutive slices of at most `size` characters, in order.
(The source only reaches this loop with a positive `chunk_size`.) -/
def hardSplit (size : Nat) (s : List Char) : List String :=
  if h : s = [] ∨ size = 0 then []
  else String.mk (s.take size) :: hardSplit size (s.drop size)
termination_by s.length
decreasing_by
  simp only [List.length_drop]
  rcases not_or.mp h with ⟨hs, hn⟩
  have hpos : 0 < s.length := List.length_pos.mpr hs
  omega

/-- The metadata dictionary attached to each chunk:
`dict(source=source, chunk_id=counter)` with a numeric counter. -/
structure ChunkMeta where
  source : String
  chunk_id : Nat
deriving DecidableEq, Repr

/-- `app.ingestion.DocumentChunk`. -/
structure DocumentChunk where
  text : String
  source : String
  chunk_id : String
  metadata : ChunkMeta
deriving DecidableEq, Repr

/-- Construction of one emitted chunk in `chunk_text`: the id string is
the source name, the literal `_chunk_`, and the counter. -/
def mkChunk (source : String) (counter : Nat) (t : String) : DocumentChunk :=
  { text := t
    source := source
    chunk_id := source ++ "_chunk_" ++ toString counter
    metadata := { source := source, chunk_id := counter } }

/-- Emission of the hard-split slices, one chunk per slice, the counter
incremented after each. -/
def emitSlices (source : String) : List String → Nat → List DocumentChunk
  | [], _ => []
  | t :: rest, counter => mkChunk source counter t :: emitSlices source rest (counter + 1)

/-- One iteration of the paragraph loop of `chunk_text`.  The state is
(chunks emitted so far, current buffer, chunk counter). -/
def processPara (size : Nat) (source : String)
    (st : List DocumentChunk × List Char × Nat) (para0 : List Char) :
    List DocumentChunk × List Char × Nat :=
  let para := pyStrip para0
  if para.isEmpty then st
  else
    let chunks := st.1
    let cur := st.2.1
    let counter := st.2.2
    if size < para.length then
      let flushed :=
        if cur.isEmpty then (chunks, counter)
        else (chunks ++ [mkChunk source counter (String.mk (pyStrip cur))], counter + 1)
      let slices := hardSplit size para
      (flushed.1 ++ emitSlices source slices flushed.2, [], flushed.2 + slices.length)
    else
      if size < cur.length + para.length + 2 then
        if cur.isEmpty then (chunks, para, counter)
        else (chunks ++ [mkChunk source counter (String.mk (pyStrip cur))], para, counter + 1)
      else
        if cur.isEmpty then (chunks, para, counter)
        else (chunks, cur ++ ['\n', '\n'] ++ para, counter)

/-- `DocumentIngestion.chunk_text(text, source)` with the configured
maximum chunk size passed explicitly (`config.MAX_CHUNK_CHARS`,
default 1024). -/
def chunk_text (size : Nat) (text : String) (source : String) : List DocumentChunk :=
  let st := (splitParas text.data).foldl (processPara size source) ([], [], 0)
  if st.2.1.isEmpty then st.1
  else st.1 ++ [mkChunk source st.2.2 (String.mk (pyStrip st.2.1))]

/-- A metadata value stored in a search result's metadata mapping
(chunk metadata holds a string source name and a numeric chunk id);
rendered into an f-string exactly as Python does. -/
inductive MetaValue where
  | str (s : String)
  | num (n : Nat)
deriving DecidableEq, Repr

/-- Python string interpolation of a metadata value. -/
def metaRender : MetaValue → String
  | .str s => s
  | .num n => toString n

/-- One formatted result of `vector_db.search`. -/
structure SearchResult where
  text : String
  metadata : List (String × MetaValue)
  similarity : ℚ
deriving DecidableEq, Repr

/-- Python `result["metadata"].get(key, "unknown")` followed by f-string
interpolation of the looked-up value. -/
def metaGetStr (m : List (String × MetaValue)) (k : String) : String :=
  match m.find? (fun p => p.1 == k) with
  | some p => metaRender p.2
  | none => "unknown"

/-- `app.schemas.QAAnswer`. -/
structure QAAnswer where
  query : String
  answer : String
  sources : List String
  confidence : ℚ
deriving DecidableEq, Repr

/-- `app.schemas.IssueSummary`. -/
structure IssueSummary where
  raw_text : String
  reported_issues : List String
  affected_components : List String
  severity : String
  suggestions : List String
deriving DecidableEq, Repr

/-- `app.schemas.RouterDecision`; `tool_input` is an insertion-ordered
string-keyed mapping, modelled as an association list. -/
structure RouterDecision where
  tool : String
  rationale : String
  tool_input : List (String × String)
deriving DecidableEq, Repr

/-- One context block of `QATool._format_context`. -/
def context_block (r : SearchResult) : String :=
  "[" ++ metaGetStr r.metadata "source" ++ ":" ++ metaGetStr r.metadata "chunk_id"
    ++ "]\n" ++ r.text

/-- `QATool._format_context`. -/
def format_context (search_results : List SearchResult) : String :=
  String.intercalate "\n\n" (search_results.map context_block)

/-- `QATool._extract_sources`. -/
def extract_sources (search_results : List SearchResult) : List String :=
  search_results.map fun r =>
    metaGetStr r.metadata "source" ++ ":" ++ metaGetStr r.metadata "chunk_id"

/-- Python `round(x, 2)`: round to the nearest multiple of 1/100. -/
def round2 (x : ℚ) : ℚ := ((round (x * 100) : ℤ) : ℚ) / 100

/-- `QATool._calculate_confidence`. -/
def calculate_confidence (search_results : List SearchResult) : ℚ :=
  if search_results.isEmpty then 0
  else
    let similarities := search_results.map fun r => r.similarity
    let avg_similarity := similarities.sum / (similarities.length : ℚ)
    let confidence := min (max (avg_similarity * (12 / 10)) (1 / 10)) 1
    round2 confidence

/-- Observable behaviours of one call to
`llm_client.generate_structured_response`: a truthy parsed mapping, a
falsy result (`None`, unparseable text, or an empty mapping — the
consumers distinguish none of these), or a raised exception. -/
inductive LLMBehavior (ρ : Type) where
  | returns (r : ρ)
  | failure
  | raises
deriving DecidableEq, Repr

/-- Running the model call inside the enclosing try/except: a raised
exception propagates as an `Except.error`. -/
def llmGenerate {ρ : Type} : LLMBehavior ρ → Except Unit (Option ρ)
  | .returns r => .ok (some r)
  | .failure => .ok none
  | .raises => .error ()

/-- A Python `try: body except Exception: return handler` wrapper; the
handler value comes first, the translated try-body second. -/
def pyTry {α : Type} (handler : α) (body : Except Unit α) : Except Unit α :=
  match body with
  | .ok a => .ok a
  | .error _ => .ok handler

/-- The keys of the model's Q&A reply that `answer_question` reads. -/
structure QAResponse where
  answer : Option String
deriving DecidableEq, Repr

/-- `QATool.answer_question`, with the retrieval step's results and the
model behaviour passed explicitly (`vector_db.search` catches its own
errors and returns a list; the model call may raise). -/
def answer_question (query : String) (search_results : List SearchResult)
    (b : LLMBehavior QAResponse) : Except Unit QAAnswer :=
  pyTry ({ query := query, answer := "เกิดข้อผิดพลาดในการประมวลผล",
                      sources := [], confidence := 0 }) <| do
    if search_results.isEmpty then
      pure { query := query, answer := "ไม่พบข้อมูลเพียงพอ", sources := [], confidence := 0 }
    else
      let _context := format_context search_results
      let response ← llmGenerate b
      match response with
      | none =>
        pure { query := query, answer := "ไม่พบข้อมูลเพียงพอ",
               sources := extract_sources search_results, confidence := 1 / 10 }
      | some r =>
        pure { query := query
               answer := r.answer.getD "ไม่พบข้อมูลเพียงพอ"
               sources := extract_sources search_results
               confidence := calculate_confidence search_results }

/-- The keys of the model's issue reply that `summarize_issue` reads. -/
structure IssueResponse where
  reported_issues : Option (List String)
  affected_components : Option (List String)
  severity : Option String
  suggestions : Option (List String)
deriving DecidableEq, Repr

/-- `IssueSummaryTool.summarize_issue`. -/
def summarize_issue (issue_text : String) (b : LLMBehavior IssueResponse) :
    Except Unit IssueSummary :=
  pyTry ({ raw_text := issue_text, reported_issues := [],
                      affected_components := [], severity := "Low", suggestions := [] }) <| do
    let response ← llmGenerate b
    match response with
    | none =>
      pure { raw_text := issue_text, reported_issues := [],
             affected_components := [], severity := "Low", suggestions := [] }
    | some r =>
      let reported_issues := r.reported_issues.getD []
      let affected_components := r.affected_components.getD []
      let severity0 := r.severity.getD "Low"
      let suggestions := r.suggestions.getD []
      let severity :=
        if ["Low", "Medium", "High", "Critical"].contains severity0 then severity0
        else "Low"
      pure { raw_text := issue_text, reported_issues := reported_issues,
             affected_components := affected_components, severity := severity,
             suggestions := suggestions }

/-- The keys of the model's routing reply that `_route_query` reads. -/
structure RouterResponse where
  tool : Option String
  rationale : Option String
  tool_input : Option (List (String × String))
deriving DecidableEq, Repr

/-- Python `key in dict` on an association list. -/
def containsKey (d : List (String × String)) (k : String) : Bool :=
  d.any fun p => p.1 == k

/-- Python `dict.get(key, default)` on an association list. -/
def dictGet (d : List (String × String)) (k : String) (dflt : String) : String :=
  match d.find? (fun p => p.1 == k) with
  | some p => p.2
  | none => dflt

/-- Python `dict[key] = value` for a key not yet present: insertion at
the end of the insertion order. -/
def dictSetNew (d : List (String × String)) (k v : String) : List (String × String) :=
  d ++ [(k, v)]

/-- `RouterAgent._route_query`. -/
def route_query (query : String) (b : LLMBehavior RouterResponse) :
    Except Unit RouterDecision :=
  pyTry ({ tool := "qa", rationale := "Error in routing, defaulting to QA.",
                      tool_input := [("query", query)] }) <| do
    let response ← llmGenerate b
    match response with
    | none =>
      pure { tool := "qa"
             rationale := "Unable to determine appropriate tool, defaulting to QA."
             tool_input := [("query", query)] }
    | some r =>
      let tool0 := r.tool.getD "qa"
      let tool := if ["qa", "issue_summary"].contains tool0 then tool0 else "qa"
      let ti0 := r.tool_input.getD []
      let tool_input :=
        if tool = "qa" then
          if containsKey ti0 "query" then ti0 else dictSetNew ti0 "query" query
        else if tool = "issue_summary" then
          if containsKey ti0 "issue_text" then ti0 else dictSetNew ti0 "issue_text" query
        else ti0
      let rationale := r.rationale.getD "No rationale provided"
      pure { tool := tool, rationale := rationale, tool_input := tool_input }

/-- The `Union[QAAnswer, IssueSummary]` result of `_execute_tool`. -/
inductive ToolResult where
  | qa (a : QAAnswer)
  | issue (s : IssueSummary)
deriving DecidableEq, Repr

/-- `RouterAgent._execute_tool`. -/
def execute_tool (decision : RouterDecision) (bq : LLMBehavior QAResponse)
    (search_results : List SearchResult) (bi : LLMBehavior IssueResponse) :
    Except Unit ToolResult :=
  pyTry
    (
      if decision.tool = "qa" then
        .qa { query := dictGet decision.tool_input "query" ""
              answer := "เกิดข้อผิดพลาดในการประมวลผล", sources := [], confidence := 0 }
      else
        .issue { raw_text := dictGet decision.tool_input "issue_text" ""
                 reported_issues := [], affected_components := []
                 severity := "Low", suggestions := [] }) <| do
    if decision.tool = "qa" then
      let a ← answer_question (dictGet decision.tool_input "query" "") search_results bq
      pure (ToolResult.qa a)
    else if decision.tool = "issue_summary" then
      let s ← summarize_issue (dictGet decision.tool_input "issue_text" "") bi
      pure (ToolResult.issue s)
    else
      throw ()

/-- The mapping returned by `process_query`, with keys decision and
result. -/
structure ProcessResult where
  decision : RouterDecision
  result : ToolResult
deriving DecidableEq, Repr

/-- `RouterAgent.process_query`. -/
def process_query (query : String) (br : LLMBehavior RouterResponse)
    (bq : LLMBehavior QAResponse) (search_results : List SearchResult)
    (bi : LLMBehavior IssueResponse) : Except Unit ProcessResult :=
  pyTry
    (
      { decision := { tool := "qa", rationale := "Error occurred, falling back to QA tool."
                      tool_input := [("query", query)] }
        result := .qa { query := query, answer := "เกิดข้อผิดพลาดในการประมวลผล"
                        sources := [], confidence := 0 } }) <| do
    let decision ← route_query query br
    let result ← execute_tool decision bq search_results bi
    pure { decision := decision, result := result }

/-! ### Helper lemmas -/

theorem length_dropWhile_le (p : Char → Bool) (l : List Char) :
    (l.dropWhile p).length ≤ l.length := by
  induction l with
  | nil => simp
  | cons a t ih =>
    rw [List.dropWhile]
    cases p a <;> simp <;> omega

theorem length_pyStrip_le (s : List Char) : (pyStrip s).length ≤ s.length := by
  unfold pyStrip
  calc (((s.dropWhile isPySpace).reverse.dropWhile isPySpace).reverse).length
      = ((s.dropWhile isPySpace).reverse.dropWhile isPySpace).length := by
        rw [List.length_reverse]
    _ ≤ (s.dropWhile isPySpace).reverse.length := length_dropWhile_le _ _
    _ = (s.dropWhile isPySpace).length := by rw [List.length_reverse]
    _ ≤ s.length := length_dropWhile_le _ _

theorem round2_mono {x y : ℚ} (h : x ≤ y) : round2 x ≤ round2 y := by
  unfold round2
  have hr : round (x * 100) ≤ round (y * 100) := by
    rw [round_eq, round_eq]
    exact Int.floor_mono (by linarith)
  have hc : ((round (x * 100) : ℤ) : ℚ) ≤ ((round (y * 100) : ℤ) : ℚ) := by
    exact_mod_cast hr
  linarith

theorem round2_tenth : round2 (1 / 10) = 1 / 10 := by
  norm_num [round2, round_eq]

theorem round2_one : round2 1 = 1 := by
  norm_num [round2, round_eq]

theorem foldl_preserve {α σ : Type _} (f : σ → α → σ) (P : σ → Prop)
    (step : ∀ s a, P s → P (f s a)) :
    ∀ (l : List α) (s : σ), P s → P (l.foldl f s) := by
  intro l
  induction l with
  | nil => intro s hs; exact hs
  | cons a t ih => intro s hs; exact ih _ (step _ _ hs)

theorem answer_question_ok (query : String) (search_results : List SearchResult)
    (b : LLMBehavior QAResponse) : ∃ a, answer_question query search_results b = .ok a := by
  cases b <;> cases h : search_results.isEmpty <;>
    simp [answer_question, pyTry, llmGenerate, h, Bind.bind, Except.bind, Pure.pure, Except.pure]

theorem summarize_issue_ok (issue_text : String) (b : LLMBehavior IssueResponse) :
    ∃ s, summarize_issue issue_text b = .ok s := by
  cases b <;> simp [summarize_issue, pyTry, llmGenerate, Bind.bind, Except.bind, Pure.pure, Except.pure]

theorem route_query_ok (query : String) (b : LLMBehavior RouterResponse) :
    ∃ d, route_query query b = .ok d := by
  cases b <;> simp [route_query, pyTry, llmGenerate, Bind.bind, Except.bind, Pure.pure, Except.pure]

theorem execute_tool_ok (decision : RouterDecision) (bq : LLMBehavior QAResponse)
    (search_results : List SearchResult) (bi : LLMBehavior IssueResponse) :
    ∃ r, execute_tool decision bq search_results bi = .ok r := by
  unfold execute_tool
  by_cases hqa : decision.tool = "qa"
  · obtain ⟨a, ha⟩ := answer_question_ok (dictGet decision.tool_input "query" "") search_results bq
    simp [pyTry, hqa, ha, Bind.bind, Except.bind, Pure.pure, Except.pure]
  · by_cases his : decision.tool = "issue_summary"
    · obtain ⟨s, hs⟩ := summarize_issue_ok (dictGet decision.tool_input "issue_text" "") bi
      simp [pyTry, hqa, his, hs, Bind.bind, Except.bind, Pure.pure, Except.pure]
    · simp [pyTry, hqa, his, Bind.bind, Except.bind, Pure.pure, Except.pure]

theorem process_query_ok (query : String) (br : LLMBehavior RouterResponse)
    (bq : LLMBehavior QAResponse) (search_results : List SearchResult)
    (bi : LLMBehavior IssueResponse) :
    ∃ p, process_query query br bq search_results bi = .ok p := by
  obtain ⟨d, hd⟩ := route_query_ok query br
  obtain ⟨r, hr⟩ := execute_tool_ok d bq search_results bi
  simp [process_query, pyTry, hd, hr, Bind.bind, Except.bind, Pure.pure, Except.pure]

theorem hardSplit_length_le (size : Nat) (s : List Char) :
    ∀ t ∈ hardSplit size s, t.length ≤ size := by
  induction s using hardSplit.induct size with
  | case1 x h => rw [hardSplit]; simp [h]
  | case2 x h ih =>
    rw [hardSplit]
    simp only [h, dite_false, List.mem_cons]
    intro t ht
    rcases ht with h1 | h2
    · subst h1
      show (x.take size).length ≤ size
      simp [List.length_take]
    · exact ih t h2

theorem emitSlices_map_counter (source : String) :
    ∀ (l : List String) (c : Nat),
      (emitSlices source l c).map (fun ch => ch.metadata.chunk_id) =
        List.range' c l.length := by
  intro l
  induction l with
  | nil => intro c; simp [emitSlices]
  | cons t rest ih =>
    intro c
    rw [emitSlices]
    simp only [List.map_cons, ih, List.length_cons]
    rw [List.range'_succ c rest.length 1]
    rfl

theorem emitSlices_mem (source : String) :
    ∀ (l : List String) (c : Nat) (ch : DocumentChunk), ch ∈ emitSlices source l c →
      ∃ t ∈ l, ∃ n, ch = mkChunk source n t := by
  intro l
  induction l with
  | nil => intro c ch hch; simp [emitSlices] at hch
  | cons t rest ih =>
    intro c ch hch
    rw [emitSlices] at hch
    rcases List.mem_cons.mp hch with h1 | h2
    · exact ⟨t, by simp, c, h1⟩
    · obtain ⟨u, hu, n, hn⟩ := ih (c + 1) ch h2
      exact ⟨u, by simp [hu], n, hn⟩

/-- Invariant for the chunk-size bound: every emitted chunk and the
accumulating buffer stay within the configured size. -/
def SizeInv (size : Nat) (st : List DocumentChunk × List Char × Nat) : Prop :=
  (∀ c ∈ st.1, c.text.length ≤ size) ∧ st.2.1.length ≤ size

theorem processPara_size_inv (size : Nat) (source : String)
    (st : List DocumentChunk × List Char × Nat) (para0 : List Char)
    (h : SizeInv size st) : SizeInv size (processPara size source st para0) := by
  obtain ⟨chunks, cur, ctr⟩ := st
  obtain ⟨hchunks, hcur⟩ := h
  unfold processPara
  by_cases hp : (pyStrip para0).isEmpty
  · simp only [hp, if_true]
    exact ⟨hchunks, hcur⟩
  · simp only [hp, if_false]
    by_cases hbig : size < (pyStrip para0).length
    · by_cases hc : cur.isEmpty
      · simp only [hbig, if_true, hc, if_true]
        refine ⟨?_, by simp⟩
        intro c hmem
        rcases List.mem_append.mp hmem with h1 | h2
        · exact hchunks c h1
        · obtain ⟨t, ht, n, rfl⟩ := emitSlices_mem source _ _ c h2
          show t.length ≤ size
          exact hardSplit_length_le size (pyStrip para0) t ht
      · simp only [hbig, if_true, hc, if_false]
        refine ⟨?_, by simp⟩
        intro c hmem
        rcases List.mem_append.mp hmem with h1 | h2
        · rcases List.mem_append.mp h1 with h3 | h4
          · exact hchunks c h3
          · rcases List.mem_singleton.mp h4 with rfl
            show (String.mk (pyStrip cur)).length ≤ size
            calc (String.mk (pyStrip cur)).length = (pyStrip cur).length := rfl
              _ ≤ cur.length := length_pyStrip_le cur
              _ ≤ size := hcur
        · obtain ⟨t, ht, n, rfl⟩ := emitSlices_mem source _ _ c h2
          show t.length ≤ size
          exact hardSplit_length_le size (pyStrip para0) t ht
    · by_cases hover : size < cur.length + (pyStrip para0).length + 2
      · by_cases hc : cur.isEmpty
        · simp only [hbig, if_false, hover, if_true, hc, if_true]
          exact ⟨hchunks, by show (pyStrip para0).length ≤ size; omega⟩
        · simp only [hbig, if_false, hover, if_true, hc, if_false]
          refine ⟨?_, by show (pyStrip para0).length ≤ size; omega⟩
          intro c hmem
          rcases List.mem_append.mp hmem with h1 | h2
          · exact hchunks c h1
          · rcases List.mem_singleton.mp h2 with rfl
            show (String.mk (pyStrip cur)).length ≤ size
            calc (String.mk (pyStrip cur)).length = (pyStrip cur).length := rfl
              _ ≤ cur.length := length_pyStrip_le cur
              _ ≤ size := hcur
      · by_cases hc : cur.isEmpty
        · simp only [hbig, if_false, hover, if_false, hc, if_true]
          exact ⟨hchunks, by show (pyStrip para0).length ≤ size; omega⟩
        · simp only [hbig, if_false, hover, if_false, hc, if_false]
          refine ⟨hchunks, ?_⟩
          show (cur ++ ['\n', '\n'] ++ pyStrip para0).length ≤ size
          simp only [List.length_append, List.length_cons, List.length_nil]
          omega

theorem range_append_range' (c n : Nat) :
    List.range c ++ List.range' c n = List.range (c + n) := by
  rw [List.range_eq_range' c, List.range_eq_range' (c + n)]
  have h := List.range'_append 0 c n 1
  simpa [Nat.add_comm] using h

/-- Invariant for id monotonicity: the emitted chunks carry metadata
counters 0, 1, ... in order, the loop counter is the next free index,
and every id string is the source name, `_chunk_`, and that counter. -/
def IdInv (source : String) (st : List DocumentChunk × List Char × Nat) : Prop :=
  st.1.map (fun c => c.metadata.chunk_id) = List.range st.2.2 ∧
  ∀ c ∈ st.1, c.chunk_id = source ++ "_chunk_" ++ toString c.metadata.chunk_id

theorem processPara_id_inv (size : Nat) (source : String)
    (st : List DocumentChunk × List Char × Nat) (para0 : List Char)
    (h : IdInv source st) : IdInv source (processPara size source st para0) := by
  obtain ⟨chunks, cur, ctr⟩ := st
  obtain ⟨hmap, hid⟩ := h
  unfold processPara
  by_cases hp : (pyStrip para0).isEmpty
  · simp only [hp, if_true]
    exact ⟨hmap, hid⟩
  · simp only [hp, if_false]
    by_cases hbig : size < (pyStrip para0).length
    · by_cases hc : cur.isEmpty
      · simp only [hbig, if_true, hc, if_true]
        constructor
        · show (chunks ++ emitSlices source (hardSplit size (pyStrip para0)) ctr).map
              (fun c => c.metadata.chunk_id) =
            List.range (ctr + (hardSplit size (pyStrip para0)).length)
          rw [List.map_append, hmap, emitSlices_map_counter, range_append_range']
        · intro c hmem
          rcases List.mem_append.mp hmem with h1 | h2
          · exact hid c h1
          · obtain ⟨t, ht, n, rfl⟩ := emitSlices_mem source _ _ c h2
            rfl
      · simp only [hbig, if_true, hc, if_false]
        constructor
        · show ((chunks ++ [mkChunk source ctr (String.mk (pyStrip cur))]) ++
              emitSlices source (hardSplit size (pyStrip para0)) (ctr + 1)).map
              (fun c => c.metadata.chunk_id) =
            List.range (ctr + 1 + (hardSplit size (pyStrip para0)).length)
          rw [List.map_append, List.map_append, hmap, emitSlices_map_counter]
          show (List.range ctr ++ [ctr]) ++
              List.range' (ctr + 1) (hardSplit size (pyStrip para0)).length = _
          rw [← List.range_succ, range_append_range']
        · intro c hmem
          rcases List.mem_append.mp hmem with h1 | h2
          · rcases List.mem_append.mp h1 with h3 | h4
            · exact hid c h3
            · rcases List.mem_singleton.mp h4 with rfl
              rfl
          · obtain ⟨t, ht, n, rfl⟩ := emitSlices_mem source _ _ c h2
            rfl
    · by_cases hover : size < cur.length + (pyStrip para0).length + 2
      · by_cases hc : cur.isEmpty
        · simp only [hbig, if_false, hover, if_true, hc, if_true]
          exact ⟨hmap, hid⟩
        · simp only [hbig, if_false, hover, if_true, hc, if_false]
          constructor
          · show (chunks ++ [mkChunk source ctr (String.mk (pyStrip cur))]).map
                (fun c => c.metadata.chunk_id) = List.range (ctr + 1)
            rw [List.map_append, hmap]
            exact (List.range_succ ctr).symm
          · intro c hmem
            rcases List.mem_append.mp hmem with h1 | h2
            · exact hid c h1
            · rcases List.mem_singleton.mp h2 with rfl
              rfl
      · by_cases hc : cur.isEmpty
        · simp only [hbig, if_false, hover, if_false, hc, if_true]
          exact ⟨hmap, hid⟩
        · simp only [hbig, if_false, hover, if_false, hc, if_false]
          exact ⟨hmap, hid⟩

/-! ### Claim theorems -/

/-- C6: for every input text and source name (and a positive configured
maximum chunk size, as in the deployed configuration), every chunk
produced by `chunk_text` has text of length at most the maximum chunk
size, including hard-split slices of oversized paragraphs. -/
theorem chunk_size_bound (size : Nat) (hsize : 0 < size) (text source : String) :
    ∀ c ∈ chunk_text size text source, c.text.length ≤ size := by
  have hinv : SizeInv size ((splitParas text.data).foldl (processPara size source) ([], [], 0)) :=
    foldl_preserve _ _ (fun s a hs => processPara_size_inv size source s a hs) _ _
      ⟨by simp, by simp⟩
  have key : ∀ (st : List DocumentChunk × List Char × Nat), SizeInv size st →
      ∀ c ∈ (if st.2.1.isEmpty then st.1
             else st.1 ++ [mkChunk source st.2.2 (String.mk (pyStrip st.2.1))]),
        c.text.length ≤ size := by
    intro st hst
    obtain ⟨hchunks, hcur⟩ := hst
    by_cases hc : st.2.1.isEmpty
    · simp only [hc, if_true]
      exact hchunks
    · simp only [hc, if_false]
      intro c hmem
      rcases List.mem_append.mp hmem with h1 | h2
      · exact hchunks c h1
      · rcases List.mem_singleton.mp h2 with rfl
        show (pyStrip st.2.1).length ≤ size
        exact le_trans (length_pyStrip_le _) hcur
  exact key _ hinv

/-- C6 witness: the bound instantiated at a concrete document, chunk and
the default maximum chunk size. -/
theorem chunk_size_bound_witness :
    (mkChunk "doc" 0 "Alpha one.\n\nBeta two.").text.length ≤ 1024 :=
  chunk_size_bound 1024 (by norm_num) "Alpha one.\n\nBeta two." "doc"
    (mkChunk "doc" 0 "Alpha one.\n\nBeta two.") (by decide)

/-- C7: for every input text and source name (and positive maximum chunk
size), the ids of the produced chunks, in emission order, are exactly the
source name, `_chunk_`, and 0 through N-1 with no gaps, and the metadata
carries the numeric counter. -/
theorem chunk_ids_sequential (size : Nat) (hsize : 0 < size) (text source : String) :
    (chunk_text size text source).map (fun c => c.chunk_id) =
      (List.range (chunk_text size text source).length).map
        (fun n => source ++ "_chunk_" ++ toString n) ∧
    (chunk_text size text source).map (fun c => c.metadata.chunk_id) =
      List.range (chunk_text size text source).length := by
  have hinv : IdInv source ((splitParas text.data).foldl (processPara size source) ([], [], 0)) :=
    foldl_preserve _ _ (fun s a hs => processPara_id_inv size source s a hs) _ _
      ⟨by simp, by simp⟩
  have key : ∀ (st : List DocumentChunk × List Char × Nat), IdInv source st →
      ((if st.2.1.isEmpty then st.1
        else st.1 ++ [mkChunk source st.2.2 (String.mk (pyStrip st.2.1))]).map
          (fun c => c.metadata.chunk_id) =
        List.range (if st.2.1.isEmpty then st.1
          else st.1 ++ [mkChunk source st.2.2 (String.mk (pyStrip st.2.1))]).length) ∧
      ∀ c ∈ (if st.2.1.isEmpty then st.1
             else st.1 ++ [mkChunk source st.2.2 (String.mk (pyStrip st.2.1))]),
        c.chunk_id = source ++ "_chunk_" ++ toString c.metadata.chunk_id := by
    intro st hst
    obtain ⟨hmap, hid⟩ := hst
    have hlen : st.1.length = st.2.2 := by
      have h := congrArg List.length hmap
      simpa using h
    by_cases hc : st.2.1.isEmpty
    · simp only [hc, if_true]
      exact ⟨by rw [hmap, hlen], hid⟩
    · simp only [hc, if_false]
      constructor
      · show (st.1 ++ [mkChunk source st.2.2 (String.mk (pyStrip st.2.1))]).map
            (fun c => c.metadata.chunk_id) =
          List.range (st.1 ++ [mkChunk source st.2.2 (String.mk (pyStrip st.2.1))]).length
        rw [List.map_append, hmap]
        have h1 : (st.1 ++ [mkChunk source st.2.2 (String.mk (pyStrip st.2.1))]).length
            = st.2.2 + 1 := by
          simp [hlen]
        rw [h1]
        show List.range st.2.2 ++ [st.2.2] = List.range (st.2.2 + 1)
        exact (List.range_succ st.2.2).symm
      · intro c hmem
        rcases List.mem_append.mp hmem with h1 | h2
        · exact hid c h1
        · rcases List.mem_singleton.mp h2 with rfl
          rfl
  have hfin := key _ hinv
  have hmeta : (chunk_text size text source).map (fun c => c.metadata.chunk_id) =
      List.range (chunk_text size text source).length := hfin.1
  have hids : ∀ c ∈ chunk_text size text source,
      c.chunk_id = source ++ "_chunk_" ++ toString c.metadata.chunk_id := hfin.2
  refine ⟨?_, hmeta⟩
  calc (chunk_text size text source).map (fun c => c.chunk_id)
      = (chunk_text size text source).map
          (fun c => source ++ "_chunk_" ++ toString c.metadata.chunk_id) :=
        List.map_congr_left (fun c hc => hids c hc)
    _ = ((chunk_text size text source).map (fun c => c.metadata.chunk_id)).map
          (fun n => source ++ "_chunk_" ++ toString n) := by
        rw [List.map_map]
        rfl
    _ = (List.range (chunk_text size text source).length).map
          (fun n => source ++ "_chunk_" ++ toString n) := by rw [hmeta]

/-- C7 witness: id sequence instantiated at a concrete document and the
default maximum chunk size. -/
theorem chunk_ids_sequential_witness :
    (chunk_text 1024 "Alpha one.\n\nBeta two." "doc").map (fun c => c.chunk_id) =
      (List.range (chunk_text 1024 "Alpha one.\n\nBeta two." "doc").length).map
        (fun n => "doc" ++ "_chunk_" ++ toString n) ∧
    (chunk_text 1024 "Alpha one.\n\nBeta two." "doc").map (fun c => c.metadata.chunk_id) =
      List.range (chunk_text 1024 "Alpha one.\n\nBeta two." "doc").length :=
  chunk_ids_sequential 1024 (by norm_num) "Alpha one.\n\nBeta two." "doc"

/-- C1: for every query and every behaviour of the language-model
capability (parsed mapping, nothing parseable, raised exception),
`answer_question`, `summarize_issue`, and `process_query` return a
structurally valid record of their declared type (`QAAnswer`,
`IssueSummary`, `ProcessResult`) and never propagate an exception:
the `Except`-level computation always ends in `Except.ok`. -/
theorem no_exception_invariant (query issue_text : String)
    (search_results : List SearchResult) (bq : LLMBehavior QAResponse)
    (bi : LLMBehavior IssueResponse) (br : LLMBehavior RouterResponse) :
    (∃ a : QAAnswer, answer_question query search_results bq = .ok a) ∧
    (∃ s : IssueSummary, summarize_issue issue_text bi = .ok s) ∧
    (∃ p : ProcessResult, process_query query br bq search_results bi = .ok p) :=
  ⟨answer_question_ok query search_results bq, summarize_issue_ok issue_text bi,
   process_query_ok query br bq search_results bi⟩

/-- C4: `calculate_confidence` of an empty result list is exactly 0;
of a non-empty list it is the rounded clamp of 1.2 times the mean
similarity, and that value always lies in the closed interval from
1/10 to 1. -/
theorem confidence_formula_and_bounds :
    calculate_confidence [] = 0 ∧
    ∀ search_results : List SearchResult, search_results ≠ [] →
      calculate_confidence search_results =
        round2 (min (max (((search_results.map fun r => r.similarity).sum /
          (((search_results.map fun r => r.similarity).length : ℚ))) * (12 / 10)) (1 / 10)) 1) ∧
      1 / 10 ≤ calculate_confidence search_results ∧
      calculate_confidence search_results ≤ 1 := by
  constructor
  · rfl
  · intro rs hrs
    have hE : rs.isEmpty = false := by
      cases rs with
      | nil => exact absurd rfl hrs
      | cons a t => rfl
    have hcc : calculate_confidence rs =
        round2 (min (max (((rs.map fun r => r.similarity).sum /
          (((rs.map fun r => r.similarity).length : ℚ))) * (12 / 10)) (1 / 10)) 1) := by
      unfold calculate_confidence
      rw [hE]
      rfl
    refine ⟨hcc, ?_, ?_⟩
    · rw [hcc]
      calc (1 : ℚ) / 10 = round2 (1 / 10) := round2_tenth.symm
        _ ≤ _ := round2_mono (le_min (le_max_right _ _) (by norm_num))
    · rw [hcc]
      calc round2 _ ≤ round2 1 := round2_mono (min_le_right _ _)
        _ = 1 := round2_one

/-- C4 witness: bounds at a concrete one-element result list. -/
theorem confidence_formula_and_bounds_witness :
    1 / 10 ≤ calculate_confidence [⟨"t", [], 1 / 2⟩] ∧
    calculate_confidence [⟨"t", [], 1 / 2⟩] ≤ 1 := by
  have h := confidence_formula_and_bounds.2 [⟨"t", [], 1 / 2⟩] (by simp)
  exact ⟨h.2.1, h.2.2⟩

/-- C5: with zero retrieval results, `answer_question` returns the fixed
insufficient-information answer with no sources and confidence exactly 0,
for every model behaviour (so the model is never consulted); with
non-empty results and a failed or unparseable model call, it returns the
fixed insufficient-information answer with the retrieval-derived sources
and confidence exactly 1/10. -/
theorem qa_zero_results_and_model_failure (query : String) (b : LLMBehavior QAResponse)
    (search_results : List SearchResult) (h : search_results ≠ []) :
    answer_question query [] b =
      .ok { query := query, answer := "ไม่พบข้อมูลเพียงพอ", sources := [], confidence := 0 } ∧
    answer_question query search_results .failure =
      .ok { query := query, answer := "ไม่พบข้อมูลเพียงพอ",
            sources := extract_sources search_results, confidence := 1 / 10 } := by
  have hE : search_results.isEmpty = false := by
    cases search_results with
    | nil => exact absurd rfl h
    | cons a t => rfl
  constructor
  · cases b <;> rfl
  · simp [answer_question, pyTry, llmGenerate, hE, Bind.bind, Except.bind, Pure.pure,
      Except.pure]

/-- C5 witness: both branches at concrete inputs. -/
theorem qa_zero_results_and_model_failure_witness :
    answer_question "q" [] .raises =
      .ok { query := "q", answer := "ไม่พบข้อมูลเพียงพอ", sources := [], confidence := 0 } ∧
    answer_question "q" [⟨"t", [("source", .str "doc"), ("chunk_id", .num 2)], 9 / 10⟩] .failure =
      .ok { query := "q", answer := "ไม่พบข้อมูลเพียงพอ",
            sources := extract_sources [⟨"t", [("source", .str "doc"), ("chunk_id", .num 2)], 9 / 10⟩],
            confidence := 1 / 10 } :=
  qa_zero_results_and_model_failure "q" .raises
    [⟨"t", [("source", .str "doc"), ("chunk_id", .num 2)], 9 / 10⟩] (by simp)

/-- C8: for every query and model behaviour the decision's tool is in
the closed set qa / issue_summary, and whenever the parsed response's
tool is missing or outside that set the decision's tool is qa. -/
theorem router_tool_closed_set :
    (∀ (query : String) (b : LLMBehavior RouterResponse) (d : RouterDecision),
        route_query query b = .ok d → d.tool = "qa" ∨ d.tool = "issue_summary") ∧
    (∀ (query : String) (r : RouterResponse) (d : RouterDecision),
        (∀ t, r.tool = some t → t ≠ "qa" ∧ t ≠ "issue_summary") →
        route_query query (.returns r) = .ok d → d.tool = "qa") := by
  have hmain : ∀ (query : String) (r : RouterResponse) (d : RouterDecision),
      route_query query (.returns r) = .ok d →
      d.tool = (if (["qa", "issue_summary"].contains (r.tool.getD "qa")) = true
                then r.tool.getD "qa" else "qa") := by
    intro query r d hd
    simp only [route_query, pyTry, llmGenerate, Bind.bind, Except.bind, Pure.pure,
      Except.pure, Except.ok.injEq] at hd
    subst hd
    rfl
  constructor
  · intro query b d hd
    cases b with
    | returns r =>
      rw [hmain query r d hd]
      by_cases hc : (["qa", "issue_summary"].contains (r.tool.getD "qa")) = true
      · rw [if_pos hc]
        have hmem : (r.tool.getD "qa") ∈ ["qa", "issue_summary"] := List.elem_iff.mp hc
        simpa using hmem
      · rw [if_neg hc]
        left
        rfl
    | failure =>
      simp only [route_query, pyTry, llmGenerate, Bind.bind, Except.bind, Pure.pure,
        Except.pure, Except.ok.injEq] at hd
      subst hd
      left
      rfl
    | raises =>
      simp only [route_query, pyTry, llmGenerate, Bind.bind, Except.bind, Pure.pure,
        Except.pure, Except.ok.injEq] at hd
      subst hd
      left
      rfl
  · intro query r d hr hd
    rw [hmain query r d hd]
    cases hrt : r.tool with
    | none => rfl
    | some t =>
      obtain ⟨h1, h2⟩ := hr t hrt
      have hcon : (["qa", "issue_summary"].contains t) = false := by
        cases hc : (["qa", "issue_summary"].contains t) with
        | false => rfl
        | true =>
          have hmem := List.elem_iff.mp hc
          simp at hmem
          rcases hmem with h3 | h3
          · exact absurd h3 h1
          · exact absurd h3 h2
      show (if (["qa", "issue_summary"].contains t) = true then t else "qa") = "qa"
      rw [hcon]
      rfl

/-- C8 witness: both parts at concrete inputs (a raising model call and
a parsed response naming an unknown tool). -/
theorem router_tool_closed_set_witness :
    ((RouterDecision.mk "qa" "Error in routing, defaulting to QA." [("query", "x")]).tool = "qa" ∨
     (RouterDecision.mk "qa" "Error in routing, defaulting to QA." [("query", "x")]).tool
        = "issue_summary") ∧
    (RouterDecision.mk "qa" "No rationale provided" [("query", "x")]).tool = "qa" := by
  constructor
  · exact router_tool_closed_set.1 "x" .raises
      (RouterDecision.mk "qa" "Error in routing, defaulting to QA." [("query", "x")]) rfl
  · exact router_tool_closed_set.2 "x" ⟨some "bad", none, none⟩
      (RouterDecision.mk "qa" "No rationale provided" [("query", "x")])
      (by intro t ht; injection ht with h0; subst h0; exact ⟨by decide, by decide⟩) rfl

/-- C9: an invalid severity string in the parsed response (exact match
against Low / Medium / High / Critical, so a case mismatch such as
medium counts as invalid) is coerced to Low, and each absent list field
defaults to the empty sequence (a Lean list is never null by typing). -/
theorem severity_coercion_and_list_defaults :
    (∀ (issue_text : String) (r : IssueResponse) (s : String) (out : IssueSummary),
        r.severity = some s → s ∉ (["Low", "Medium", "High", "Critical"] : List String) →
        summarize_issue issue_text (.returns r) = .ok out → out.severity = "Low") ∧
    (∀ (issue_text : String) (r : IssueResponse) (out : IssueSummary),
        summarize_issue issue_text (.returns r) = .ok out →
        (r.reported_issues = none → out.reported_issues = []) ∧
        (r.affected_components = none → out.affected_components = []) ∧
        (r.suggestions = none → out.suggestions = [])) := by
  have hmain : ∀ (issue_text : String) (r : IssueResponse) (out : IssueSummary),
      summarize_issue issue_text (.returns r) = .ok out →
      out = { raw_text := issue_text
              reported_issues := r.reported_issues.getD []
              affected_components := r.affected_components.getD []
              severity :=
                if (["Low", "Medium", "High", "Critical"].contains (r.severity.getD "Low")) = true
                then r.severity.getD "Low" else "Low"
              suggestions := r.suggestions.getD [] } := by
    intro issue_text r out hd
    simp only [summarize_issue, pyTry, llmGenerate, Bind.bind, Except.bind, Pure.pure,
      Except.pure, Except.ok.injEq] at hd
    subst hd
    rfl
  constructor
  · intro issue_text r s out hs hnotin hd
    rw [hmain issue_text r out hd]
    show (if (["Low", "Medium", "High", "Critical"].contains (r.severity.getD "Low")) = true
          then r.severity.getD "Low" else "Low") = "Low"
    rw [hs]
    show (if (["Low", "Medium", "High", "Critical"].contains s) = true then s else "Low") = "Low"
    have hcon : (["Low", "Medium", "High", "Critical"].contains s) = false := by
      cases hc : (["Low", "Medium", "High", "Critical"].contains s) with
      | false => rfl
      | true => exact absurd (List.elem_iff.mp hc) hnotin
    rw [hcon]
    rfl
  · intro issue_text r out hd
    rw [hmain issue_text r out hd]
    refine ⟨fun h => ?_, fun h => ?_, fun h => ?_⟩ <;> simp [h]

/-- C9 witness: a lowercase severity is coerced to Low, and absent list
fields come out empty, at a concrete response. -/
theorem severity_coercion_and_list_defaults_witness :
    (IssueSummary.mk "sys" [] [] "Low" []).severity = "Low" ∧
    (IssueSummary.mk "sys" [] [] "Low" []).reported_issues = [] ∧
    (IssueSummary.mk "sys" [] [] "Low" []).affected_components = [] ∧
    (IssueSummary.mk "sys" [] [] "Low" []).suggestions = [] := by
  have h1 := severity_coercion_and_list_defaults.1 "sys" ⟨none, none, some "medium", none⟩
    "medium" (IssueSummary.mk "sys" [] [] "Low" []) rfl (by decide) rfl
  have h2 := severity_coercion_and_list_defaults.2 "sys" ⟨none, none, some "medium", none⟩
    (IssueSummary.mk "sys" [] [] "Low" []) rfl
  exact ⟨h1, h2.1 rfl, h2.2.1 rfl, h2.2.2 rfl⟩

/-- C2 (amended): when the parsed routing response's tool is missing or
invalid, the decision's tool is coerced to qa, but the rationale is
taken from the response (with the fixed default only when absent) and
the tool_input is the response's own mapping with the query key
backfilled only when absent; the wholesale fixed-rationale default
applies only on the no-response path. -/
theorem router_invalid_tool_normalization (query : String) (r : RouterResponse)
    (h : ∀ t, r.tool = some t → t ≠ "qa" ∧ t ≠ "issue_summary") :
    route_query query (.returns r) =
      .ok { tool := "qa"
            rationale := r.rationale.getD "No rationale provided"
            tool_input :=
              if containsKey (r.tool_input.getD []) "query" then r.tool_input.getD []
              else dictSetNew (r.tool_input.getD []) "query" query } := by
  have htool : (if (["qa", "issue_summary"].contains (r.tool.getD "qa")) = true
                then r.tool.getD "qa" else "qa") = "qa" := by
    cases hrt : r.tool with
    | none => rfl
    | some t =>
      obtain ⟨h1, h2⟩ := h t hrt
      have hcon : (["qa", "issue_summary"].contains t) = false := by
        cases hc : (["qa", "issue_summary"].contains t) with
        | false => rfl
        | true =>
          have hmem := List.elem_iff.mp hc
          simp at hmem
          rcases hmem with h3 | h3
          · exact absurd h3 h1
          · exact absurd h3 h2
      show (if (["qa", "issue_summary"].contains t) = true then t else "qa") = "qa"
      rw [hcon]
      rfl
  simp only [route_query, pyTry, llmGenerate, Bind.bind, Except.bind, Pure.pure, Except.pure]
  rw [htool]
  simp

/-- C2 witness for the amended statement: an unknown tool with no
rationale and no tool_input yields the qa decision with the absent-field
defaults. -/
theorem router_invalid_tool_normalization_witness :
    route_query "ping" (.returns ⟨some "zzz", none, none⟩) =
      .ok { tool := "qa", rationale := "No rationale provided",
            tool_input := [("query", "ping")] } := by
  have h := router_invalid_tool_normalization "ping" ⟨some "zzz", none, none⟩
    (by intro t ht; injection ht with h0; subst h0; exact ⟨by decide, by decide⟩)
  exact h

/-- C2 counterexample: with an invalid tool but a model-supplied
rationale and tool_input, the rationale is NOT overwritten to a fixed
string and the tool_input is NOT replaced by the bare query mapping —
refuting the claim as stated. -/
theorem router_invalid_tool_counterexample :
    route_query "ping" (.returns ⟨some "banana", some "sounds fruity", some [("foo", "bar")]⟩) =
      .ok { tool := "qa", rationale := "sounds fruity",
            tool_input := [("foo", "bar"), ("query", "ping")] } ∧
    ("sounds fruity" : String) ≠ "Unable to determine appropriate tool, defaulting to QA." ∧
    ("sounds fruity" : String) ≠ "Error in routing, defaulting to QA." ∧
    ([("foo", "bar"), ("query", "ping")] : List (String × String)) ≠ [("query", "ping")] :=
  ⟨rfl, by decide, by decide, by decide⟩

/-- C10: `context_block` / `format_context` / `extract_sources` are
total, and a search result whose metadata lacks the source and chunk_id
keys is rendered with the literal placeholder unknown in both the
formatted context block and the source reference. -/
theorem qa_missing_metadata_unknown (search_results : List SearchResult) (r : SearchResult)
    (hmem : r ∈ search_results)
    (hsource : r.metadata.find? (fun p => p.1 == "source") = none)
    (hchunk : r.metadata.find? (fun p => p.1 == "chunk_id") = none) :
    context_block r = "[unknown:unknown]\n" ++ r.text ∧
    ("[unknown:unknown]\n" ++ r.text) ∈ search_results.map context_block ∧
    ("unknown:unknown" : String) ∈ extract_sources search_results ∧
    (extract_sources search_results).length = search_results.length ∧
    format_context search_results = String.intercalate "\n\n" (search_results.map context_block) := by
  have h1 : metaGetStr r.metadata "source" = "unknown" := by
    unfold metaGetStr
    rw [hsource]
  have h2 : metaGetStr r.metadata "chunk_id" = "unknown" := by
    unfold metaGetStr
    rw [hchunk]
  have hblock : context_block r = "[unknown:unknown]\n" ++ r.text := by
    unfold context_block
    rw [h1, h2]
    rfl
  have hsrc : metaGetStr r.metadata "source" ++ ":" ++ metaGetStr r.metadata "chunk_id"
      = "unknown:unknown" := by
    rw [h1, h2]
    rfl
  refine ⟨hblock, ?_, ?_, ?_, rfl⟩
  · rw [← hblock]
    exact List.mem_map_of_mem context_block hmem
  · rw [← hsrc]
    exact List.mem_map_of_mem _ hmem
  · show (search_results.map _).length = search_results.length
    exact List.length_map _ _

/-- C10 witness: a one-result list with empty metadata. -/
theorem qa_missing_metadata_unknown_witness :
    context_block ⟨"hello", [], 1 / 2⟩ = "[unknown:unknown]\n" ++ ("hello" : String) ∧
    ("[unknown:unknown]\n" ++ ("hello" : String)) ∈
      ([⟨"hello", [], 1 / 2⟩] : List SearchResult).map context_block ∧
    ("unknown:unknown" : String) ∈ extract_sources [⟨"hello", [], 1 / 2⟩] ∧
    (extract_sources [⟨"hello", [], 1 / 2⟩]).length =
      ([⟨"hello", [], 1 / 2⟩] : List SearchResult).length ∧
    format_context [⟨"hello", [], 1 / 2⟩] =
      String.intercalate "\n\n" (([⟨"hello", [], 1 / 2⟩] : List SearchResult).map context_block) :=
  qa_missing_metadata_unknown [⟨"hello", [], 1 / 2⟩] ⟨"hello", [], 1 / 2⟩ (by simp) rfl rfl

/-- C3 counterexample: three short paragraphs under the default maximum
chunk size are merged into a single chunk by the buffer accumulation, so
the chunk count is 1, not 3. -/
theorem chunk_three_short_paragraphs_counterexample :
    (chunk_text 1024 "First paragraph.\n\nSecond paragraph.\n\nThird paragraph." "doc").length
      = 1 ∧
    (chunk_text 1024 "First paragraph.\n\nSecond paragraph.\n\nThird paragraph." "doc").length
      ≠ 3 := by
  constructor
  · rfl
  · decide

/-- C3 (amended): chunking a document of three short paragraphs under
the default maximum chunk size produces exactly one chunk whose text is
the whole document (the three paragraphs joined by blank-line
separators), with id 0. -/
theorem chunk_three_short_paragraphs_merged :
    chunk_text 1024 "First paragraph.\n\nSecond paragraph.\n\nThird paragraph." "doc" =
      [{ text := "First paragraph.\n\nSecond paragraph.\n\nThird paragraph."
         source := "doc"
         chunk_id := "doc_chunk_0"
         metadata := { source := "doc", chunk_id := 0 } }] := by
  rfl
